import Mathlib

/-!
Verification of the ps6_clubtwitshows core against its specification.

The development shallowly embeds the two core components of the repository:
the RSS feed parser (`clubtwit.py`, `ClubTwit._parse_xml`) and the streaming
download engine (`main.py`, `Downloader.run`; `android.py`,
`DownloaderThread.run`), plus the download-start guard of the mobile front end
(`android.py`, `RootView.start_download`).  External collaborators (the lxml
XML/HTML parsers, the HTTP transport, the filesystem, the UI toolkits) are
modelled as explicit inputs: a parsed element tree, a list of transport
chunks, a sampled cancellation flag, and an HTML-fragment-parsing oracle.
-/

namespace ClubTwitShows

/-- An XML element as exposed by the lxml etree API: a tag name, an attribute
list, optional text content, and a list of child elements (in document
order).  This is the input shape that `ClubTwit._parse_xml` consumes after
`etree.fromstring` (the external XML parser) has succeeded. -/
inductive Elem where
  | mk (tag : String) (attrs : List (String × String)) (text : Option String)
      (children : List Elem)

/-- Tag name of an element. -/
def Elem.tag : Elem → String
  | .mk t _ _ _ => t

/-- Attribute list of an element. -/
def Elem.attrs : Elem → List (String × String)
  | .mk _ a _ _ => a

/-- Text content of an element (`element.text` in lxml; `none` models
Python `None`). -/
def Elem.text : Elem → Option String
  | .mk _ _ x _ => x

/-- Children of an element, in document order. -/
def Elem.children : Elem → List Elem
  | .mk _ _ _ cs => cs

/-- Preorder (document-order) listing of all elements of a forest: each
element followed by its descendants, then its right siblings.  Models the
document-order traversal underlying lxml `findall`. -/
def preorder : List Elem → List Elem
  | [] => []
  | Elem.mk t a x cs :: rest => Elem.mk t a x cs :: (preorder cs ++ preorder rest)

/-- Models `root.findall(".//item")` (clubtwit.py line 62): all descendants of
the root whose tag is `item`, in document order. -/
def findallItems (root : Elem) : List Elem :=
  (preorder root.children).filter (fun e => e.tag == "item")

/-- Models lxml `element.find(tag)` for a plain tag path: the first direct
child with the given tag, or `none`. -/
def Elem.find (e : Elem) (tag : String) : Option Elem :=
  e.children.find? (fun c => c.tag == tag)

/-- Models lxml `element.findtext(tag, default)`: the text of the first
direct child with the given tag; the empty string when that child exists but
has no text; the default when no such child exists. -/
def Elem.findtext (e : Elem) (tag dflt : String) : String :=
  match e.find tag with
  | none => dflt
  | some c => (Elem.text c).getD ""

/-- Models lxml `element.get(name)`: the value of the attribute with the
given name, or `none` when absent. -/
def Elem.get (e : Elem) (name : String) : Option String :=
  (e.attrs.find? (fun p => p.1 == name)).map (fun p => p.2)

/-- Strips leading and trailing whitespace from a character list, as Python
`str.strip()` does (restricted to the ASCII whitespace recognised by
`Char.isWhitespace`). -/
def pyStripList (cs : List Char) : List Char :=
  ((cs.dropWhile Char.isWhitespace).reverse.dropWhile Char.isWhitespace).reverse

/-- Models Python `str.strip()` on strings (ASCII whitespace). -/
def pyStrip (s : String) : String :=
  String.mk (pyStripList s.toList)

/-- Base-10 value of a list of decimal digit characters. -/
def digitsVal (cs : List Char) : Nat :=
  cs.foldl (fun a c => a * 10 + (c.toNat - 48)) 0

/-- Checks the tail of a Python decimal literal: digits with single
underscores allowed only between digits. -/
def digitTail : List Char → Bool
  | [] => true
  | '_' :: [] => false
  | '_' :: c :: rest => c.isDigit && digitTail (c :: rest)
  | c :: rest => c.isDigit && digitTail rest

/-- Checks a full Python decimal digit part: nonempty, starts with a digit,
underscores only between digits. -/
def pyDigits : List Char → Bool
  | [] => false
  | c :: rest => c.isDigit && digitTail rest

/-- Value of a digit part, ignoring underscore separators. -/
def digitsValue (cs : List Char) : Nat :=
  digitsVal (cs.filter (fun c => c != '_'))

/-- Models Python `int(s)` on a string: optional surrounding whitespace, an
optional sign, then a decimal digit part; `none` models the `ValueError`
raised on any other input.  (Non-ASCII digits are not modelled.) -/
def pyInt (s : String) : Option Int :=
  match pyStripList s.toList with
  | '-' :: rest => if pyDigits rest then some (-(digitsValue rest : Int)) else none
  | '+' :: rest => if pyDigits rest then some ((digitsValue rest : Int)) else none
  | cs => if pyDigits cs then some ((digitsValue cs : Int)) else none

/-- Outcome of handing one description HTML fragment to the external lxml
`etree.parse(StringIO(...), HTMLParser())` call followed by
`tree.xpath("//p[1]")` (clubtwit.py lines 72-76).  `fails` models the parse
raising; `noPara` models an empty xpath result; `para t` models a first
paragraph element whose `.text` is `t` (`none` for Python `None`). -/
inductive HtmlParse where
  | fails
  | noPara
  | para (text : Option String)

/-- One parsed show, mirroring the dictionary built at clubtwit.py lines
93-99 (keys Title, Description, Link, PubDate, Length).  `Length` is an
integer because Python `int` is unbounded and signed. -/
structure ShowRecord where
  Title : String
  Description : String
  Link : String
  PubDate : String
  Length : Int
deriving Repr, DecidableEq

/-- Per-item extraction of `ClubTwit._parse_xml` (clubtwit.py lines 64-100),
with the nested HTML parse supplied as the oracle `o`:
title via `findtext("title", "No Title")`; description by parsing the raw
description fragment when it is non-empty (falling back to the fixed
placeholder when the nested parse raises) and stripping the result;
link and length from the `enclosure` child when present, a non-`int`-parsable
length defaulting to 0; pubDate via `findtext("pubDate", "No Date")`. -/
def itemRecord (o : String → HtmlParse) (item : Elem) : ShowRecord :=
  let title := item.findtext "title" "No Title"
  let descriptionHtml := item.findtext "description" ""
  let descriptionText :=
    if descriptionHtml = "" then ""
    else
      match o descriptionHtml with
      | .fails => "Could not parse description."
      | .noPara => ""
      | .para t => t.getD ""
  let linkLength : String × Int :=
    match item.find "enclosure" with
    | none => ("", 0)
    | some enc =>
      let link := (enc.get "url").getD ""
      let length : Int :=
        match enc.get "length" with
        | none => 0
        | some s => (pyInt s).getD 0
      (link, length)
  { Title := title
    Description := pyStrip descriptionText
    Link := linkLength.1
    PubDate := item.findtext "pubDate" "No Date"
    Length := linkLength.2 }

/-- Models `ClubTwit._parse_xml` after the external `etree.fromstring` has
produced the root element: iterates over `root.findall(".//item")` appending
one record per item (clubtwit.py lines 60-102). -/
def parseXml (o : String → HtmlParse) (root : Elem) : List ShowRecord :=
  (findallItems root).foldl (fun acc item => acc ++ [itemRecord o item]) []

/-- One event delivered to the sink by a download session: a progress event
(`progress.emit`/`progress_detail.emit` in main.py, `progress_cb` in
android.py) carrying percent, bytes downloaded and total bytes, or one of the
two terminal events (`finished` / `error msg`; cancellation surfaces as
`error "Canceled"` in both front ends). -/
inductive Ev where
  | progress (percent downloaded total : Nat)
  | finished
  | error (msg : String)
deriving Repr, DecidableEq

/-- Whether an event is terminal (finished or error). -/
def Ev.isTerminal : Ev → Bool
  | .progress _ _ _ => false
  | .finished => true
  | .error _ => true

/-- Percent carried by a progress event, `none` for terminal events. -/
def Ev.percentOf : Ev → Option Nat
  | .progress p _ _ => some p
  | .finished => none
  | .error _ => none

/-- Percent formula of the download loop:
`int((bytes_downloaded * 100) // total_size) if total_size > 0 else 0`
(main.py line 101, android.py line 219). -/
def pct (total b : Nat) : Nat := if 0 < total then b * 100 / total else 0

/-- Chunk loop of `Downloader.run` (main.py lines 92-109) and
`DownloaderThread.run` (android.py lines 210-224).  `chunks` is the sequence
the streaming response yields; `abort i` is the value of the cooperative
cancellation flag observed at the top of iteration `i`; `bytes` and `file`
are the running byte count and file contents.  Returns the emitted progress
events, the file contents, the byte count, and whether the loop broke on the
abort flag.  Per the source: the flag is tested first, an empty chunk is
skipped (`continue`) without writing or emitting, otherwise the chunk is
appended to the file and one progress event is emitted. -/
def dlLoop (total : Nat) (abort : Nat → Bool) :
    List (List Nat) → Nat → Nat → List Nat → List Ev × List Nat × Nat × Bool
  | [], _, bytes, file => ([], file, bytes, false)
  | c :: rest, i, bytes, file =>
    if abort i then ([], file, bytes, true)
    else if c.length = 0 then dlLoop total abort rest (i + 1) bytes file
    else
      let r := dlLoop total abort rest (i + 1) (bytes + c.length) (file ++ c)
      (Ev.progress (pct total (bytes + c.length)) (bytes + c.length) total :: r.1, r.2)

/-- Observable outcome of one download session: whether the destination path
exists afterwards, its contents, the final byte counter, and the events
delivered to the sink in order. -/
structure RunResult where
  fileExists : Bool
  file : List Nat
  bytes : Nat
  events : List Ev
deriving Repr, DecidableEq

/-- Full session body of `Downloader.run` (main.py lines 87-119) and
`DownloaderThread.run` (android.py lines 206-234) on a transport stream that
yields `chunks` without raising: open the destination, run the chunk loop,
then — if the loop broke on the abort flag — remove the destination file and
deliver the single terminal `error "Canceled"` event, otherwise keep the file
and deliver the single terminal `finished` event. -/
def Downloader.run (total : Nat) (abort : Nat → Bool) (chunks : List (List Nat)) : RunResult :=
  let r := dlLoop total abort chunks 0 0 []
  if r.2.2.2 then ⟨false, [], r.2.2.1, r.1 ++ [Ev.error "Canceled"]⟩
  else ⟨true, r.2.1, r.2.2.1, r.1 ++ [Ev.finished]⟩

/-- The active download session descriptor held by the mobile front end
(`RootView._download_thread`): the URL being fetched and the destination
path. -/
structure DownloadReq where
  url : String
  filepath : String
deriving Repr, DecidableEq

/-- Result of a call to `RootView.start_download`.  The constructor
`conflictError` is Modelled from the spec: the `ConflictError` outcome the
specification names for a second start while one download is in progress;
the code under src/ never produces it — `ignoredBusy` is the silent early
return the code performs instead.  The remaining constructors are the other
exits of android.py lines 346-385. -/
inductive StartOutcome where
  | conflictError
  | ignoredBusy
  | noSelection
  | noLink
  | started
deriving Repr, DecidableEq

/-- State of the mobile front end (`RootView` in android.py) restricted to
the fields `start_download` reads or writes. -/
structure RootView where
  shows : List ShowRecord
  selected_index : Int
  is_downloading : Bool
  can_download : Bool
  progress_percent : Nat
  status_line : String
  save_dir : String
  stop_flag : Bool
  download_thread : Option DownloadReq
deriving Repr, DecidableEq

/-- Default record used for the (unreachable, bounds-guarded) list access in
`start_download`. -/
def dfltShow : ShowRecord :=
  { Title := "", Description := "", Link := "", PubDate := "", Length := 0 }

/-- Filename sanitisation of android.py line 359 (identical in main.py line
379): keep alphanumerics, spaces, dots and underscores, then strip trailing
whitespace (`rstrip`).  `Char.isAlphanum` is the ASCII restriction of Python
`str.isalnum`. -/
def sanitizeTitle (t : String) : String :=
  String.mk
    (((t.toList.filter (fun c => c.isAlphanum || c == ' ' || c == '.' || c == '_')).reverse.dropWhile
        Char.isWhitespace).reverse)

/-- Index of the last occurrence of a character, `-1` when absent — Python
`str.rfind`. -/
def lastIdxOf (c : Char) (cs : List Char) : Int :=
  (cs.enum.filter (fun p => p.2 == c)).foldl (fun m p => max m (p.1 : Int)) (-1)

/-- Extension component of posix `os.path.splitext`: the suffix from the last
dot, provided that dot follows the last slash and at least one non-dot
character stands between them; empty otherwise. -/
def splitextExt (p : String) : String :=
  let cs := p.toList
  let sepIndex := lastIdxOf '/' cs
  let dotIndex := lastIdxOf '.' cs
  if sepIndex < dotIndex then
    let body := (cs.drop (sepIndex + 1).toNat).take (dotIndex - sepIndex - 1).toNat
    if body.any (fun ch => ch != '.') then String.mk (cs.drop dotIndex.toNat) else ""
  else ""

/-- Posix `os.path.join` for two components. -/
def pathJoin (a b : String) : String :=
  if b.startsWith "/" then b
  else if a = "" then a ++ b
  else if a.endsWith "/" then a ++ b
  else a ++ "/" ++ b

/-- Models `RootView.start_download` (android.py lines 346-385).  `home` is
the external `os.path.expanduser` result.  In order, as in the source: a
silent early return while `is_downloading`; a status message when the
selection index is out of range; a status message when the selected show has
no link; otherwise derive the destination filename (sanitised title plus the
URL extension, defaulting to `.mp4`), flip the session state to downloading,
reset the stop flag and record the new session.  Returns the updated state
and which exit was taken. -/
def RootView.start_download (home : String) (s : RootView) : RootView × StartOutcome :=
  if s.is_downloading then (s, .ignoredBusy)
  else if s.selected_index < 0 ∨ (s.shows.length : Int) ≤ s.selected_index then
    ({ s with status_line := "Select a show first." }, .noSelection)
  else
    let shw := s.shows.getD s.selected_index.toNat dfltShow
    if shw.Link = "" then
      ({ s with status_line := "No download link for this item." }, .noLink)
    else
      let safe_name := sanitizeTitle shw.Title
      let extRaw := splitextExt shw.Link
      let ext := if extRaw = "" then ".mp4" else extRaw
      let filename := safe_name ++ ext
      let dir := if s.save_dir = "" then home else s.save_dir
      let filepath := pathJoin dir filename
      ({ s with
          is_downloading := true
          can_download := false
          progress_percent := 0
          status_line := "Downloading: " ++ shw.Title
          stop_flag := false
          download_thread := some { url := shw.Link, filepath := filepath } }, .started)

/-- Item A of the specification's two-item example feed: an enclosure with
`url="http://x/a.mp4"` and `length="1000000"`. -/
def itemA : Elem :=
  .mk "item" [] none
    [.mk "title" [] (some "A") [],
     .mk "enclosure" [("url", "http://x/a.mp4"), ("length", "1000000")] none []]

/-- Item B of the specification's two-item example feed: no enclosure and no
description (a field-missing item). -/
def itemB : Elem :=
  .mk "item" [] none [.mk "title" [] (some "B") []]

/-- The specification's two-item example feed, items A then B in document
order. -/
def feedAB : Elem :=
  .mk "rss" [] none [.mk "channel" [] none [itemA, itemB]]

/-- An HTML-parse oracle that finds no paragraph in any fragment. -/
def oracleNone : String → HtmlParse := fun _ => .noPara

/-- An HTML-parse oracle fixture: the fragment `frag` has a first paragraph
with text `" hi "`; every other fragment makes the nested parse raise. -/
def oracleHi : String → HtmlParse :=
  fun s => if s = "frag" then .para (some " hi ") else .fails

/-- A feed item whose description field holds the fragment `frag`. -/
def itemDesc : Elem :=
  .mk "item" [] none [.mk "description" [] (some "frag") []]

/-- A feed item with a `title` element that is present but has no text. -/
def itemEmptyTitle : Elem := .mk "item" [] none [.mk "title" [] none []]

/-- A feed item with no `title` element at all. -/
def itemNoTitle : Elem := .mk "item" [] none []

/-- An enclosure element whose `length` attribute is the negative numeral
`"-5"`. -/
def encNeg : Elem := .mk "enclosure" [("url", "u"), ("length", "-5")] none []

/-- A feed item carrying `encNeg` as its enclosure. -/
def itemNegLen : Elem := .mk "item" [] none [encNeg]

/-- A cancellation flag that is never set. -/
def abortNever : Nat → Bool := fun _ => false

/-- A cancellation flag observed set from the second chunk boundary on. -/
def abortFrom1 : Nat → Bool := fun i => decide (1 ≤ i)

/-- Chunk fixture for the cancellation claims. -/
def chunksC1 : List (List Nat) := [[1, 2], [3], [4, 5]]

/-- Chunk fixture summing to six bytes. -/
def chunksC4 : List (List Nat) := [[1, 2, 3], [4, 5, 6]]

/-- Chunk fixture for the progress-monotonicity claim. -/
def chunksC5 : List (List Nat) := [[1], [2, 3]]

/-- Chunk fixture for the late-cancellation claim. -/
def chunksC10 : List (List Nat) := [[7], [8]]

/-- A downloadable show used by the front-end fixtures. -/
def showA : ShowRecord :=
  { Title := "A", Description := "", Link := "http://x/a.mp4",
    PubDate := "No Date", Length := 1000000 }

/-- A front-end state with a download already in progress on `showA`. -/
def busyView : RootView :=
  { shows := [showA], selected_index := 0, is_downloading := true,
    can_download := false, progress_percent := 42,
    status_line := "Downloading: A", save_dir := "/sd", stop_flag := false,
    download_thread := some { url := "http://x/a.mp4", filepath := "/sd/A.mp4" } }

/-! ## Helper lemmas -/

/-- Folding append-of-singleton over a list is `map`. -/
theorem foldl_append_singleton {α β : Type} (f : α → β) :
    ∀ (l : List α) (acc : List β),
      l.foldl (fun a x => a ++ [f x]) acc = acc ++ l.map f := by
  intro l
  induction l with
  | nil => intro acc; simp
  | cons x xs ih => intro acc; simp [ih (acc ++ [f x])]

/-- The parser is the document-order map of per-item extraction. -/
theorem parseXml_eq_map (o : String → HtmlParse) (root : Elem) :
    parseXml o root = (findallItems root).map (itemRecord o) := by
  simpa [parseXml] using foldl_append_singleton (itemRecord o) (findallItems root) []

/-- The chunk loop emits progress events only. -/
theorem dlLoop_terminal_free (total : Nat) (abort : Nat → Bool) :
    ∀ (chunks : List (List Nat)) (i bytes : Nat) (file : List Nat),
      ((dlLoop total abort chunks i bytes file).1).filter Ev.isTerminal = [] := by
  intro chunks
  induction chunks with
  | nil => intro i bytes file; simp [dlLoop]
  | cons c rest ih =>
    intro i bytes file
    by_cases h : abort i
    · simp [dlLoop, h]
    · by_cases hc : c.length = 0
      · simp [dlLoop, h, hc, ih]
      · simp [dlLoop, h, hc, ih, Ev.isTerminal]

/-- When the cancellation flag is observed false at every chunk boundary the
loop writes every chunk, counts every byte, and does not break. -/
theorem dlLoop_no_abort (total : Nat) (abort : Nat → Bool) :
    ∀ (chunks : List (List Nat)) (i bytes : Nat) (file : List Nat),
      (∀ j, j < chunks.length → abort (i + j) = false) →
      (dlLoop total abort chunks i bytes file).2 =
        (file ++ chunks.flatten, bytes + (chunks.map List.length).sum, false) := by
  intro chunks
  induction chunks with
  | nil => intro i bytes file _; simp [dlLoop]
  | cons c rest ih =>
    intro i bytes file h
    have h0 : abort i = false := by simpa using h 0 (by simp)
    have hs : ∀ j, j < rest.length → abort (i + 1 + j) = false := by
      intro j hj
      have hh := h (j + 1) (by simpa using Nat.succ_lt_succ hj)
      have he : i + (j + 1) = i + 1 + j := by omega
      rwa [he] at hh
    by_cases hc : c.length = 0
    · have hcnil : c = [] := List.length_eq_zero.mp hc
      simp [dlLoop, h0, hc, ih (i + 1) bytes file hs, hcnil]
    · simp [dlLoop, h0, hc, ih (i + 1) (bytes + c.length) (file ++ c) hs,
        List.append_assoc, Nat.add_assoc]

/-- When the cancellation flag is first observed true at boundary `k` with
chunks remaining, the loop breaks with exactly the bytes of the first `k`
chunks counted. -/
theorem dlLoop_abort_at (total : Nat) (abort : Nat → Bool) :
    ∀ (chunks : List (List Nat)) (k i bytes : Nat) (file : List Nat),
      k < chunks.length → abort (i + k) = true →
      (∀ j, j < k → abort (i + j) = false) →
      (dlLoop total abort chunks i bytes file).2.2 =
        (bytes + ((chunks.take k).map List.length).sum, true) := by
  intro chunks
  induction chunks with
  | nil => intro k i bytes file hk; exact absurd hk (by simp)
  | cons c rest ih =>
    intro k i bytes file hk ha hb
    cases k with
    | zero =>
      have h0 : abort i = true := by simpa using ha
      simp [dlLoop, h0]
    | succ k =>
      have h0 : abort i = false := by simpa using hb 0 (Nat.succ_pos k)
      have ha' : abort (i + 1 + k) = true := by
        have he : i + (k + 1) = i + 1 + k := by omega
        rwa [he] at ha
      have hb' : ∀ j, j < k → abort (i + 1 + j) = false := by
        intro j hj
        have hh := hb (j + 1) (Nat.succ_lt_succ hj)
        have he : i + (j + 1) = i + 1 + j := by omega
        rwa [he] at hh
      have hk' : k < rest.length := by simpa using Nat.lt_of_succ_lt_succ hk
      by_cases hc : c.length = 0
      · have hcnil : c = [] := List.length_eq_zero.mp hc
        simp [dlLoop, h0, hc, ih k (i + 1) bytes file hk' ha' hb', hcnil]
      · simp [dlLoop, h0, hc, ih k (i + 1) (bytes + c.length) (file ++ c) hk' ha' hb',
          Nat.add_assoc]

/-- The percent formula is monotone in the byte count. -/
theorem pct_mono (total : Nat) {b b' : Nat} (h : b ≤ b') :
    pct total b ≤ pct total b' := by
  unfold pct
  by_cases ht : 0 < total
  · simp only [ht, if_true]
    exact Nat.div_le_div_right (Nat.mul_le_mul_right 100 h)
  · simp [ht]

/-- The percents of the progress events the loop emits form a nondecreasing
chain starting from the percent of the incoming byte count. -/
theorem dlLoop_chain (total : Nat) (abort : Nat → Bool) :
    ∀ (chunks : List (List Nat)) (i bytes : Nat) (file : List Nat),
      List.Chain (· ≤ ·) (pct total bytes)
        (((dlLoop total abort chunks i bytes file).1).filterMap Ev.percentOf) := by
  intro chunks
  induction chunks with
  | nil => intro i bytes file; simp [dlLoop]
  | cons c rest ih =>
    intro i bytes file
    by_cases h : abort i
    · simp [dlLoop, h]
    · by_cases hc : c.length = 0
      · simpa [dlLoop, h, hc] using ih (i + 1) bytes file
      · have hmono : pct total bytes ≤ pct total (bytes + c.length) :=
          pct_mono total (Nat.le_add_right bytes c.length)
        have hrec := ih (i + 1) (bytes + c.length) (file ++ c)
        simp only [dlLoop, h, hc, if_false, ite_false, Bool.false_eq_true,
          List.filterMap_cons, Ev.percentOf]
        exact List.Chain.cons hmono hrec

/-- A chain from any starting point yields a chain along the list itself. -/
theorem chain_chain' {α : Type} {r : α → α → Prop} {a : α} :
    ∀ {l : List α}, List.Chain r a l → List.Chain' r l := by
  intro l h
  cases l with
  | nil => simp
  | cons b t => exact (List.chain_cons.mp h).2

/-! ## Claim theorems -/

/-- C2: for every well-formed feed document the parser returns one fully
defaulted record per item and never raises — in particular the
specification's feed with one well-formed item and one field-missing item
yields exactly two records. -/
theorem C2_parse_never_fails :
    (∀ (o : String → HtmlParse) (root : Elem),
        (parseXml o root).length = (findallItems root).length) ∧
    (∀ o : String → HtmlParse, (parseXml o feedAB).length = 2) := by
  constructor
  · intro o root
    rw [parseXml_eq_map]
    exact List.length_map _ _
  · intro o
    have hitems : findallItems feedAB = [itemA, itemB] := by
      simp [findallItems, feedAB, preorder, itemA, itemB, Elem.children, Elem.tag]
    rw [parseXml_eq_map, hitems]
    rfl

/-- C9: the parser yields records in the document order of the items with no
re-sorting; on the specification's two-item feed (item A with enclosure
`url="http://x/a.mp4" length="1000000"`, item B with no enclosure) it yields
exactly the link/length pairs `("http://x/a.mp4", 1000000)` then `("", 0)`. -/
theorem C9_document_order :
    (∀ (o : String → HtmlParse) (root : Elem),
        parseXml o root = (findallItems root).map (itemRecord o)) ∧
    (∀ o : String → HtmlParse,
        (parseXml o feedAB).map (fun r => (r.Link, r.Length)) =
          [("http://x/a.mp4", (1000000 : Int)), ("", 0)]) := by
  constructor
  · exact parseXml_eq_map
  · intro o
    have hitems : findallItems feedAB = [itemA, itemB] := by
      simp [findallItems, feedAB, preorder, itemA, itemB, Elem.children, Elem.tag]
    rw [parseXml_eq_map, hitems]
    rfl

/-- C6: the record's description is the stripped text of the first paragraph
of the item's description fragment when the nested parse succeeds and finds a
paragraph; the empty string when the feed supplied no description or the
fragment has no paragraph; and the fixed placeholder string when the nested
parse raises. -/
theorem C6_description_extraction (o : String → HtmlParse) (item : Elem) :
    (item.findtext "description" "" = "" → (itemRecord o item).Description = "") ∧
    (item.findtext "description" "" ≠ "" →
      o (item.findtext "description" "") = HtmlParse.fails →
      (itemRecord o item).Description = "Could not parse description.") ∧
    (item.findtext "description" "" ≠ "" →
      o (item.findtext "description" "") = HtmlParse.noPara →
      (itemRecord o item).Description = "") ∧
    (∀ t, item.findtext "description" "" ≠ "" →
      o (item.findtext "description" "") = HtmlParse.para t →
      (itemRecord o item).Description = pyStrip (t.getD "")) := by
  refine ⟨?_, ?_, ?_, ?_⟩
  · intro h
    simp only [itemRecord, h, if_pos rfl, if_true]
    rfl
  · intro h ho
    simp only [itemRecord, if_neg h, ho]
    rfl
  · intro h ho
    simp only [itemRecord, if_neg h, ho]
    rfl
  · intro t h ho
    simp only [itemRecord, if_neg h, ho]

/-- C6 witness: a concrete item whose description fragment parses to a first
paragraph with text `" hi "`. -/
theorem C6_witness :
    (itemDesc.findtext "description" "" ≠ "" ∧
      oracleHi (itemDesc.findtext "description" "") = HtmlParse.para (some " hi ")) ∧
    (itemRecord oracleHi itemDesc).Description = pyStrip ((some " hi ").getD "") :=
  ⟨⟨by decide, rfl⟩,
    (C6_description_extraction oracleHi itemDesc).2.2.2 (some " hi ") (by decide) rfl⟩

/-- C7 counterexample: the enclosure length attribute `"-5"` parses through
Python `int` to the negative value `-5`, so `lengthBytes` is not always
nonnegative. -/
theorem C7_counterexample :
    (itemRecord oracleNone itemNegLen).Length = -5 ∧
    (itemRecord oracleNone itemNegLen).Length < 0 := by
  exact ⟨rfl, by decide⟩

/-- C7 (amended): the record's `Length` is 0 when the enclosure or its length
attribute is absent (or, via `pyInt`, when the attribute is non-numeric), and
otherwise equals exactly the integer Python `int` parses from the attribute —
which may be negative for a negative numeral. -/
theorem C7_length_parsed (o : String → HtmlParse) (item : Elem) :
    (item.find "enclosure" = none → (itemRecord o item).Length = 0) ∧
    (∀ enc, item.find "enclosure" = some enc →
      (enc.get "length" = none → (itemRecord o item).Length = 0) ∧
      (∀ s, enc.get "length" = some s →
        (itemRecord o item).Length = (pyInt s).getD 0)) := by
  refine ⟨?_, ?_⟩
  · intro h
    simp [itemRecord, h]
  · intro enc henc
    refine ⟨?_, ?_⟩
    · intro h
      simp [itemRecord, henc, h]
    · intro s hs
      simp [itemRecord, henc, hs]

/-- C7 witness: the `"-5"` enclosure evaluated through the amended claim. -/
theorem C7_witness :
    (itemNegLen.find "enclosure" = some encNeg ∧ encNeg.get "length" = some "-5") ∧
    (itemRecord oracleNone itemNegLen).Length = (pyInt "-5").getD 0 :=
  ⟨⟨rfl, rfl⟩, ((C7_length_parsed oracleNone itemNegLen).2 encNeg rfl).2 "-5" rfl⟩

/-- C8 counterexample: an item with a present-but-empty `title` element gets
the empty string as its title, so the title is not never-empty. -/
theorem C8_counterexample : (itemRecord oracleNone itemEmptyTitle).Title = "" := rfl

/-- C8 (amended): the title defaults to `"No Title"` exactly when the item
has no `title` child; a present `title` child contributes its text defaulted
to the empty string, which is empty for a text-less element. -/
theorem C8_title_default (o : String → HtmlParse) (item : Elem) :
    (item.find "title" = none → (itemRecord o item).Title = "No Title") ∧
    (∀ c, item.find "title" = some c →
      (itemRecord o item).Title = (Elem.text c).getD "") := by
  refine ⟨?_, ?_⟩
  · intro h
    simp [itemRecord, Elem.findtext, h]
  · intro c h
    simp [itemRecord, Elem.findtext, h]

/-- C8 witness: an item with no title element defaults to `"No Title"`. -/
theorem C8_witness :
    itemNoTitle.find "title" = none ∧
    (itemRecord oracleNone itemNoTitle).Title = "No Title" :=
  ⟨rfl, (C8_title_default oracleNone itemNoTitle).1 rfl⟩

/-- C1: a session whose cancellation flag is observed at chunk boundary `k`
before the stream is exhausted stops without writing the pending chunk (only
the first `k` chunks are counted), leaves the destination path nonexistent,
and delivers exactly one terminal event, `error "Canceled"`. -/
theorem C1_cancel_midstream (total : Nat) (abort : Nat → Bool)
    (chunks : List (List Nat)) (k : Nat) (hk : k < chunks.length)
    (ha : abort k = true) (hb : ∀ j, j < k → abort j = false) :
    (Downloader.run total abort chunks).fileExists = false ∧
    (Downloader.run total abort chunks).bytes =
      ((chunks.take k).map List.length).sum ∧
    ((Downloader.run total abort chunks).events).filter Ev.isTerminal =
      [Ev.error "Canceled"] := by
  have habort := dlLoop_abort_at total abort chunks k 0 0 [] hk
    (by simpa using ha) (by simpa using hb)
  have hterm := dlLoop_terminal_free total abort chunks 0 0 []
  have hflag : (dlLoop total abort chunks 0 0 []).2.2.2 = true := by rw [habort]
  have hbytes : (dlLoop total abort chunks 0 0 []).2.2.1 =
      ((chunks.take k).map List.length).sum := by
    rw [habort]
    simp
  refine ⟨?_, ?_, ?_⟩
  · simp [Downloader.run, hflag]
  · simp [Downloader.run, hflag, hbytes]
  · simp [Downloader.run, hflag, hterm, List.filter_append, Ev.isTerminal]

/-- C1 witness: cancellation observed at boundary 1 of a three-chunk
stream. -/
theorem C1_witness :
    (1 < chunksC1.length ∧ abortFrom1 1 = true) ∧
    ((Downloader.run 6 abortFrom1 chunksC1).fileExists = false ∧
      (Downloader.run 6 abortFrom1 chunksC1).bytes =
        ((chunksC1.take 1).map List.length).sum ∧
      ((Downloader.run 6 abortFrom1 chunksC1).events).filter Ev.isTerminal =
        [Ev.error "Canceled"]) :=
  ⟨⟨by decide, by decide⟩,
    C1_cancel_midstream 6 abortFrom1 chunksC1 1 (by decide) (by decide) (by decide)⟩

/-- C10: when the cancellation flag is observed false at every reached chunk
boundary (a cancellation requested only after the final chunk was read and
written), the session still completes: the destination file is kept with the
full stream contents and the single terminal event is `finished`, not
`Canceled`. -/
theorem C10_cancel_after_stream (total : Nat) (abort : Nat → Bool)
    (chunks : List (List Nat))
    (h : ∀ j, j < chunks.length → abort j = false) :
    (Downloader.run total abort chunks).fileExists = true ∧
    (Downloader.run total abort chunks).file = chunks.flatten ∧
    ((Downloader.run total abort chunks).events).filter Ev.isTerminal =
      [Ev.finished] := by
  have hna := dlLoop_no_abort total abort chunks 0 0 [] (by simpa using h)
  have hterm := dlLoop_terminal_free total abort chunks 0 0 []
  have hflag : (dlLoop total abort chunks 0 0 []).2.2.2 = false := by rw [hna]
  have hfile : (dlLoop total abort chunks 0 0 []).2.1 = chunks.flatten := by
    rw [hna]
    simp
  refine ⟨?_, ?_, ?_⟩
  · simp [Downloader.run, hflag]
  · simp [Downloader.run, hflag, hfile]
  · simp [Downloader.run, hflag, hterm, List.filter_append, Ev.isTerminal]

/-- C10 witness: the flag never observed set on a two-chunk stream. -/
theorem C10_witness :
    (Downloader.run 3 abortNever chunksC10).fileExists = true ∧
    (Downloader.run 3 abortNever chunksC10).file = chunksC10.flatten ∧
    ((Downloader.run 3 abortNever chunksC10).events).filter Ev.isTerminal =
      [Ev.finished] :=
  C10_cancel_after_stream 3 abortNever chunksC10 (by decide)

/-- C4: a session that completes (no cancellation observed) over a transport
stream that delivers exactly `total` bytes, with `total > 0`, ends with
`bytesDownloaded = total` and a destination file whose size equals
`bytesDownloaded`. -/
theorem C4_completed_totals (total : Nat) (abort : Nat → Bool)
    (chunks : List (List Nat))
    (hc : ∀ j, j < chunks.length → abort j = false) (_ht : 0 < total)
    (hlen : (chunks.map List.length).sum = total) :
    ((Downloader.run total abort chunks).events).filter Ev.isTerminal =
      [Ev.finished] ∧
    (Downloader.run total abort chunks).bytes = total ∧
    ((Downloader.run total abort chunks).file).length =
      (Downloader.run total abort chunks).bytes := by
  have hna := dlLoop_no_abort total abort chunks 0 0 [] (by simpa using hc)
  have hterm := dlLoop_terminal_free total abort chunks 0 0 []
  have hflag : (dlLoop total abort chunks 0 0 []).2.2.2 = false := by rw [hna]
  have hbytes : (dlLoop total abort chunks 0 0 []).2.2.1 = total := by
    rw [hna]
    simpa using hlen
  have hfile : (dlLoop total abort chunks 0 0 []).2.1 = chunks.flatten := by
    rw [hna]
    simp
  refine ⟨?_, ?_, ?_⟩
  · simp [Downloader.run, hflag, hterm, List.filter_append, Ev.isTerminal]
  · simp [Downloader.run, hflag, hbytes]
  · simp [Downloader.run, hflag, hfile, hbytes, List.length_flatten, hlen]

/-- C4 witness: two chunks of three bytes against a content length of six. -/
theorem C4_witness :
    (0 < 6 ∧ (chunksC4.map List.length).sum = 6) ∧
    (((Downloader.run 6 abortNever chunksC4).events).filter Ev.isTerminal =
        [Ev.finished] ∧
      (Downloader.run 6 abortNever chunksC4).bytes = 6 ∧
      ((Downloader.run 6 abortNever chunksC4).file).length =
        (Downloader.run 6 abortNever chunksC4).bytes) :=
  ⟨⟨by decide, by decide⟩,
    C4_completed_totals 6 abortNever chunksC4 (by decide) (by decide) (by decide)⟩

/-- C5: for a session with `totalBytes > 0`, the percents carried by the
emitted progress events — each computed as
`floor(bytesDownloaded * 100 / totalBytes)` — are monotonically
non-decreasing across the event sequence. -/
theorem C5_percent_monotone (total : Nat) (abort : Nat → Bool)
    (chunks : List (List Nat)) (_ht : 0 < total) :
    List.Chain' (· ≤ ·)
      (((Downloader.run total abort chunks).events).filterMap Ev.percentOf) := by
  have hch := dlLoop_chain total abort chunks 0 0 []
  have hfm : ((Downloader.run total abort chunks).events).filterMap Ev.percentOf =
      ((dlLoop total abort chunks 0 0 []).1).filterMap Ev.percentOf := by
    cases hflag : (dlLoop total abort chunks 0 0 []).2.2.2 with
    | false => simp [Downloader.run, hflag, List.filterMap_append, Ev.percentOf]
    | true => simp [Downloader.run, hflag, List.filterMap_append, Ev.percentOf]
  rw [hfm]
  exact chain_chain' hch

/-- C5 witness: a two-chunk session with known total of four bytes. -/
theorem C5_witness :
    0 < 4 ∧
    List.Chain' (· ≤ ·)
      (((Downloader.run 4 abortNever chunksC5).events).filterMap Ev.percentOf) :=
  ⟨by decide, C5_percent_monotone 4 abortNever chunksC5 (by decide)⟩

/-- C3 counterexample: with a download in progress, a second start request
returns the silent `ignoredBusy` exit, which is not the `ConflictError` the
claim states. -/
theorem C3_counterexample :
    (RootView.start_download "/home/user" busyView).2 = StartOutcome.ignoredBusy ∧
    StartOutcome.ignoredBusy ≠ StartOutcome.conflictError := by
  exact ⟨rfl, by decide⟩

/-- C3 (amended): while a download is in progress a second start-download
request is rejected, not queued — the call returns immediately without
starting a session — but it signals no `ConflictError` (or anything else):
the state, including the running session, is returned entirely unchanged. -/
theorem C3_second_start_silently_ignored (home : String) (s : RootView)
    (h : s.is_downloading = true) :
    RootView.start_download home s = (s, StartOutcome.ignoredBusy) := by
  simp [RootView.start_download, h]

/-- C3 witness: the busy fixture state is returned unchanged. -/
theorem C3_witness :
    busyView.is_downloading = true ∧
    RootView.start_download "/home/user" busyView =
      (busyView, StartOutcome.ignoredBusy) :=
  ⟨rfl, C3_second_start_silently_ignored "/home/user" busyView rfl⟩

end ClubTwitShows
